import Mathlib

/-!
Verification of the `dial` snippet-manager editor core.

The Rust sources are shallowly embedded below:
* `src/editor.rs` — the `GapBuffer` text structure and its operations;
* `src/app.rs` / `src/view.rs` — the application state, the mode machine,
  the event dispatch of `App::run`, and the widget event handlers.

Rust `usize` arithmetic is modelled with `Nat`; places where the Rust code
would panic (index out of bounds, `usize` underflow, `Option::expect`) are
noted at each definition.  Stateful methods become pure state-passing
functions.  Strings are modelled as `List Char` (the Rust code works on
`Vec<char>` / `String::chars`).
-/

namespace Dial

/-- `GapBuffer` from `src/editor.rs`: a backing store of characters, the
construction-time spare `capacity`, and the gap delimiters `gap_start`
(first empty slot) and `gap_end` (intended last empty slot, inclusive). -/
structure GapBuffer where
  buffer : List Char
  capacity : Nat
  gap_start : Nat
  gap_end : Nat
  deriving Repr, DecidableEq

namespace GapBuffer

/-- `GapBuffer::from_str`: the text followed by `capacity` filler slots
(`'\x00'`); the gap is `[length, length + capacity - 1]`.  For
`capacity = 0` and empty text the Rust `length + capacity - 1` underflows
(panic); `Nat` subtraction truncates to `0` there. -/
def from_str (text : List Char) (capacity : Nat) : GapBuffer :=
  { buffer := text ++ List.replicate capacity '\x00'
    capacity := capacity
    gap_start := text.length
    gap_end := text.length + capacity - 1 }

/-- One iteration of the `while` loop in `GapBuffer::move_gap_left`:
decrement both delimiters, copy the character just left of the old gap to
the old `gap_end` slot, clear the vacated slot.  Out-of-range reads (which
panic in Rust) are totalised with the filler character. -/
def gapLeftStep (b : GapBuffer) : GapBuffer :=
  let gs := b.gap_start - 1
  let ge := b.gap_end - 1
  { b with
    gap_start := gs
    gap_end := ge
    buffer := (b.buffer.set (ge + 1) (b.buffer.getD gs '\x00')).set gs '\x00' }

/-- The loop of `move_gap_left` runs exactly `gap_start - index` times
(each iteration decrements `gap_start` by one until it reaches `index`). -/
def gapLeftGo : Nat → GapBuffer → GapBuffer
  | 0, b => b
  | n + 1, b => gapLeftGo n (gapLeftStep b)

/-- `GapBuffer::move_gap_left`. -/
def move_gap_left (b : GapBuffer) (index : Nat) : GapBuffer :=
  gapLeftGo (b.gap_start - index) b

/-- One iteration of the `while` loop in `GapBuffer::move_gap_right`:
increment both delimiters, copy the character at the new `gap_end` (one
past the old gap) to the old `gap_start`, clear the copied-from slot. -/
def gapRightStep (b : GapBuffer) : GapBuffer :=
  let gs := b.gap_start + 1
  let ge := b.gap_end + 1
  { b with
    gap_start := gs
    gap_end := ge
    buffer := (b.buffer.set (gs - 1) (b.buffer.getD ge '\x00')).set ge '\x00' }

/-- The loop of `move_gap_right` runs exactly `index - gap_start` times. -/
def gapRightGo : Nat → GapBuffer → GapBuffer
  | 0, b => b
  | n + 1, b => gapRightGo n (gapRightStep b)

/-- `GapBuffer::move_gap_right`. -/
def move_gap_right (b : GapBuffer) (index : Nat) : GapBuffer :=
  gapRightGo (index - b.gap_start) b

/-- `GapBuffer::grow`: rebuild the store as
`buffer[..gap_start] ++ (capacity * 2) fillers ++ buffer[gap_end + 1..]`,
then record `gap_end` as the length the new store had *before* the tail
was appended.  The `capacity` field itself is left unchanged, exactly as
in the source.  The Rust slices panic when `gap_start > buffer.len()` or
`gap_end + 1 > buffer.len()`; `List.take`/`List.drop` truncate there, so
theorems only evaluate `grow` at states whose slice bounds are in range,
and the out-of-range invocations (every *second* insert-triggered grow,
since a grow leaves `gap_end = buffer.len()`) are reported as the
panics they are (claims C1, C5). -/
def grow (b : GapBuffer) : GapBuffer :=
  let new_capacity := b.capacity * 2
  let pre := b.buffer.take b.gap_start ++ List.replicate new_capacity '\x00'
  { b with
    buffer := pre ++ b.buffer.drop (b.gap_end + 1)
    gap_end := pre.length }

/-- `GapBuffer::insert_char`: grow when `gap_end - gap_start == 1`, then
write at `gap_start` and advance it. -/
def insert_char (b : GapBuffer) (c : Char) : GapBuffer :=
  let gap_range := b.gap_end - b.gap_start
  let b := if gap_range = 1 then b.grow else b
  { b with
    buffer := b.buffer.set b.gap_start c
    gap_start := b.gap_start + 1 }

/-- `GapBuffer::delete_char`: no-op at `gap_start == 0`, otherwise retreat
`gap_start` and clear the vacated slot. -/
def delete_char (b : GapBuffer) : GapBuffer :=
  if b.gap_start = 0 then b
  else
    { b with
      gap_start := b.gap_start - 1
      buffer := b.buffer.set (b.gap_start - 1) '\x00' }

/-- `GapBuffer::move_gap`: reject targets with
`index + (gap_end - gap_start) > buffer.len()`, no-op when the gap is
already at `index`, otherwise shift step by step. -/
def move_gap (b : GapBuffer) (index : Nat) : GapBuffer :=
  let gap_size := b.gap_end - b.gap_start
  if index + gap_size > b.buffer.length then b
  else if index = b.gap_start then b
  else
    let b1 := if index < b.gap_start then b.move_gap_left index else b
    if index > b1.gap_start then b1.move_gap_right index else b1

/-- Modelled from the spec: the repository reads buffer content with
`gap_buffer.to_string()` (`src/view.rs`), but the corresponding
`Display`/`ToString` implementation for `GapBuffer` is not among the
provided sources.  Spec §4.1: "Materialize(): produces the live character
sequence in document order, excluding gap filler", where per §3 the
filler occupies positions `[gap_start, gap_end]` and the live characters
occupy `[0, gap_start)` and `(gap_end, capacity)`. -/
def materialize (b : GapBuffer) : List Char :=
  b.buffer.take b.gap_start ++ b.buffer.drop (b.gap_end + 1)

/-- The quantity `gap_end - gap_start` that `insert_char` tests against 1
and `move_gap` uses as `gap_size`. -/
def gapRange (b : GapBuffer) : Nat :=
  b.gap_end - b.gap_start

end GapBuffer

-- Scratch sanity checks against the repository's own unit tests.
example :
    (GapBuffer.from_str "Hello".toList 4).buffer =
      "Hello".toList ++ List.replicate 4 '\x00' := by decide
example : (GapBuffer.from_str "Hello".toList 4).gap_start = 5 := by decide
example : (GapBuffer.from_str "Hello".toList 4).gap_end = 8 := by decide
example :
    ((GapBuffer.from_str "Hello".toList 3).move_gap_left 1).buffer =
      ['H', '\x00', '\x00', '\x00', 'e', 'l', 'l', 'o'] := by decide
example :
    (((GapBuffer.from_str "Hello".toList 3).move_gap_left 1).move_gap_right
        5).buffer =
      ['H', 'e', 'l', 'l', 'o', '\x00', '\x00', '\x00'] := by decide
example :
    ((GapBuffer.from_str "Hello".toList 3).move_gap 2).buffer =
      ['H', 'e', '\x00', '\x00', '\x00', 'l', 'l', 'o'] := by decide
example :
    (((GapBuffer.from_str "Hello".toList 3).move_gap 2).move_gap 7).buffer =
      ['H', 'e', '\x00', '\x00', '\x00', 'l', 'l', 'o'] := by decide
example :
    ((((GapBuffer.from_str "Hello".toList 3).move_gap 2).move_gap 7).move_gap
        3).buffer =
      ['H', 'e', 'l', '\x00', '\x00', '\x00', 'l', 'o'] := by decide
example :
    (((GapBuffer.from_str "Hello".toList 3).move_gap 1).grow).buffer =
      ['H', '\x00', '\x00', '\x00', '\x00', '\x00', '\x00', 'e', 'l', 'l', 'o'] := by
  decide
example :
    ((GapBuffer.from_str "Hello".toList 2).insert_char ' ').buffer =
      ['H', 'e', 'l', 'l', 'o', ' ', '\x00', '\x00', '\x00'] := by decide

/-! ## The application model (`src/app.rs`, `src/view.rs`) -/

/-- `Snippet` from `src/app.rs` (field order as in the Rust struct). -/
structure Snippet where
  language : List Char
  code : List Char
  title : List Char
  deriving Repr, DecidableEq

/-- `AppMode` from `src/app.rs`. -/
inductive AppMode where
  | Select
  | Search
  | Edit
  | Command
  | Popup
  deriving Repr, DecidableEq

/-- The popup's `Input` enum from `src/view.rs` (which of the two popup
fields is focused). -/
inductive PopupField where
  | title
  | language
  deriving Repr, DecidableEq

/-- The key codes the application distinguishes; every other
`crossterm::event::KeyCode` falls into the wildcard arm of each handler
and is mapped to `other`. -/
inductive KC where
  | esc
  | char (c : Char)
  | enter
  | backspace
  | left
  | right
  | tab
  | other
  deriving Repr, DecidableEq

/-- `KeyEventKind`: the handlers only test whether the kind is `Press`. -/
inductive KK where
  | press
  | notPress
  deriving Repr, DecidableEq

/-- A terminal event: a key event, or any non-key event (resize, mouse,
...), which the run loop ignores. -/
inductive MEvent where
  | key (code : KC) (kind : KK)
  | nonkey
  deriving Repr, DecidableEq

/-- `EDITOR_BUFFER_SIZE` from `src/view.rs`. -/
def EDITOR_BUFFER_SIZE : Nat := 1024

/-- `SEARCH_BUFFER_SIZE` from `src/view.rs`. -/
def SEARCH_BUFFER_SIZE : Nat := 256

/-- `TAB_SIZE` from `src/view.rs`. -/
def TAB_SIZE : Nat := 4

/-- The mutable application state: the fields of `AppState` plus the
component-local state the claims depend on (`EditorComponent.gap_buffer`
and `.selected_index`, `SearchComponent.gap_buffer`, the popup's two
input buffers and focused field).  Screen rectangles and cursor pixel
coordinates are rendering data consumed by no claim and are omitted. -/
structure MState where
  snippets : List Snippet
  selected_index : Nat
  mode : AppMode
  should_exit : Bool
  focused_editor : Bool
  focused_search : Bool
  search_query : List Char
  editorBuf : Option GapBuffer
  editorSel : Option Nat
  searchBuf : GapBuffer
  popupTitle : GapBuffer
  popupLang : GapBuffer
  popupFocused : PopupField
  deriving Repr, DecidableEq

namespace MState

/-- Substring test: Rust `str::contains` with a string needle.  (The
empty needle matches everything, as in Rust.) -/
def strContains (hay needle : List Char) : Bool :=
  needle.isPrefixOf hay ||
    match hay with
    | [] => false
    | _ :: t => strContains t needle

/-- The filter predicate of `AppState::filtered_snippets`:
`snippet.title.to_lowercase().contains(&query.to_lowercase())`.  Rust's
`to_lowercase` performs *full Unicode* lowercasing, while Lean's
`Char.toLower` folds only ASCII `A`–`Z`; the two agree exactly on ASCII
text and diverge on every non-ASCII letter (e.g. Rust lowers `'Ö'`,
`Char.toLower` does not), so theorems about the filter are stated only
for ASCII titles and queries, where this embedding is exact. -/
def matchesQuery (query : List Char) (sn : Snippet) : Bool :=
  strContains (sn.title.map Char.toLower) (query.map Char.toLower)

/-- `AppState::filtered_snippets`: enumerate the store and keep the
records whose lowercased title contains the lowercased query. -/
def filtered_snippets (s : MState) : List (Nat × Snippet) :=
  s.snippets.enum.filter fun p => matchesQuery s.search_query p.2

/-- `AppState::get_selected_snippet_index`. -/
def get_selected_snippet_index (s : MState) : Option Nat :=
  (s.filtered_snippets.get? s.selected_index).map Prod.fst

/-- `AppState::get_content`. -/
def get_content (s : MState) : Option (List Char) :=
  s.get_selected_snippet_index.bind fun i =>
    (s.snippets.get? i).map Snippet.code

/-- `AppState::get_current_snippet`. -/
def get_current_snippet (s : MState) : Option Snippet :=
  s.get_selected_snippet_index.bind fun i => s.snippets.get? i

end MState

/-- `EditorComponent::sync_buffer_to_state` (`src/view.rs`), after its
`expect` on the buffer has succeeded: write the materialized buffer into
the `code` of the snippet at the selected original index, if any. -/
def syncBuffer (s : MState) (gb : GapBuffer) : MState :=
  match s.get_selected_snippet_index with
  | some i =>
    match s.snippets.get? i with
    | some sn =>
      { s with snippets := s.snippets.set i { sn with code := gb.materialize } }
    | none => s
  | none => s

/-- `App::switch_mode` (`src/app.rs`): only in `Command` mode, only for
key presses. -/
def switch_mode (s : MState) (code : KC) (kind : KK) : MState :=
  if kind = KK.press then
    match code with
    | KC.char c =>
      if c = 'q' then { s with should_exit := true }
      else if c = 'e' then { s with mode := AppMode.Edit }
      else if c = 's' then { s with mode := AppMode.Select }
      else if c = '/' then { s with mode := AppMode.Search }
      else s
    | _ => s
  else s

/-- `SnippetListComponent::select_next`. -/
def selectNext (s : MState) : MState :=
  let length := s.filtered_snippets.length
  if length = 0 then s
  else { s with selected_index := (s.selected_index + 1) % length }

/-- `SnippetListComponent::select_previous`. -/
def selectPrev (s : MState) : MState :=
  let length := s.filtered_snippets.length
  if length = 0 then s
  else if s.selected_index = 0 then { s with selected_index := length - 1 }
  else { s with selected_index := s.selected_index - 1 }

/-- `SnippetListComponent::handle_event`. -/
def listHandle (s : MState) (code : KC) (kind : KK) : MState :=
  match code with
  | KC.char c =>
    if c = 'j' then (if kind = KK.press then selectNext s else s)
    else if c = 'k' then (if kind = KK.press then selectPrev s else s)
    else if c = 'a' then
      (if kind = KK.press then { s with mode := AppMode.Popup } else s)
    else s
  | _ => s

/-- `EditorComponent::handle_event`, after its `expect` on the buffer has
succeeded (argument `gb`).  Any processed press sets `focused_editor`;
the cursor-coordinate arithmetic mutates only rendering state and is
omitted. -/
def editorHandle (s : MState) (gb : GapBuffer) (code : KC) (kind : KK) :
    MState :=
  if kind = KK.press then
    let gb' :=
      match code with
      | KC.char c => gb.insert_char c
      | KC.enter => gb.insert_char '\n'
      | KC.backspace => gb.delete_char
      | KC.left => gb.move_gap (gb.gap_start - 1)
      | KC.right => gb.move_gap (gb.gap_start + 1)
      | KC.tab => (List.replicate TAB_SIZE ' ').foldl GapBuffer.insert_char gb
      | _ => gb
    { s with editorBuf := some gb', focused_editor := true }
  else s

/-- `SearchComponent::handle_event`: edit the search buffer; `Enter`
commits the query (via the buffer's string conversion, see
`GapBuffer.materialize`) and resets the selection; any processed press
sets `focused_search`. -/
def searchHandle (s : MState) (code : KC) (kind : KK) : MState :=
  if kind = KK.press then
    let s' :=
      match code with
      | KC.char c => { s with searchBuf := s.searchBuf.insert_char c }
      | KC.backspace => { s with searchBuf := s.searchBuf.delete_char }
      | KC.enter =>
        { s with search_query := s.searchBuf.materialize, selected_index := 0 }
      | _ => s
    { s' with focused_search := true }
  else s

/-- `AddSnippetPopupComponent::handle_event`: `'A'` appends the new
snippet and switches to `Command` mode; other characters edit the focused
field; `Enter` toggles the focused field.  Cursor bookkeeping
(`should_show_cursor`, coordinates) is rendering state and omitted. -/
def popupHandle (s : MState) (code : KC) (kind : KK) : MState :=
  if kind = KK.press then
    match code with
    | KC.char c =>
      if c = 'A' then
        { s with
          snippets := s.snippets ++
            [{ language := s.popupLang.materialize
               code := []
               title := s.popupTitle.materialize }]
          mode := AppMode.Command }
      else
        match s.popupFocused with
        | PopupField.title => { s with popupTitle := s.popupTitle.insert_char c }
        | PopupField.language => { s with popupLang := s.popupLang.insert_char c }
    | KC.backspace =>
      match s.popupFocused with
      | PopupField.title => { s with popupTitle := s.popupTitle.delete_char }
      | PopupField.language => { s with popupLang := s.popupLang.delete_char }
    | KC.enter =>
      match s.popupFocused with
      | PopupField.title => { s with popupFocused := PopupField.language }
      | PopupField.language => { s with popupFocused := PopupField.title }
    | _ => s
  else s

/-- The non-Escape dispatch of `App::run`: route the key to the handler
of the active mode.  `none` models the Rust panic when the editor
handler's `expect` finds no buffer. -/
def dispatch (s : MState) (code : KC) (kind : KK) : Option MState :=
  if s.mode = AppMode.Command then some (switch_mode s code kind)
  else if s.mode = AppMode.Select then some (listHandle s code kind)
  else if s.mode = AppMode.Edit then
    match s.editorBuf with
    | none => none
    | some gb => some (editorHandle s gb code kind)
  else if s.mode = AppMode.Search then some (searchHandle s code kind)
  else some (popupHandle s code kind)

/-- One event-processing step of `App::run` (`src/app.rs` lines 220-260).
The returned `Bool` records whether `save_snippets` was invoked while
processing the event.  `Esc` is matched on the key code alone — before
the mode dispatch and with no `KeyEventKind` test: set `Command` mode,
blur both focus flags, sync the editor buffer back (Rust panics via
`expect` when the buffer is `None`, modelled by `none`), then save. -/
def step (s : MState) (e : MEvent) : Option (MState × Bool) :=
  match e with
  | MEvent.key code kind =>
    if code = KC.esc then
      match s.editorBuf with
      | none => none
      | some gb =>
        some
          (syncBuffer
            { s with
              mode := AppMode.Command
              focused_search := false
              focused_editor := false } gb, true)
    else (dispatch s code kind).map fun s' => (s', false)
  | MEvent.nonkey => some (s, false)

/-- First half of `EditorComponent::render`'s state mutation: re-initialise
the editor gap buffer from the selected snippet's content whenever the
selected original index changed (`none` models the `expect` panic of
`get_content` when no snippet is selected). -/
def frameInit (s : MState) : Option MState :=
  if s.editorSel = s.get_selected_snippet_index then some s
  else
    match s.get_content with
    | some code =>
      some
        { s with
          editorBuf := some (GapBuffer.from_str code EDITOR_BUFFER_SIZE)
          editorSel := s.get_selected_snippet_index }
    | none => none

/-- The mutation performed by the draw closure of `App::run` relevant to
the claims: the editor buffer re-initialisation, followed by the render's
remaining `expect`s (buffer present, a current snippet for the language
lookup), whose failure is a panic (`none`). -/
def frame (s : MState) : Option MState :=
  match frameInit s with
  | none => none
  | some s2 =>
    match s2.editorBuf, s2.get_current_snippet with
    | some _, some _ => some s2
    | _, _ => none

/-- The state built by `App::new` from the loaded snippet list. -/
def initState (snips : List Snippet) : MState :=
  { snippets := snips
    selected_index := 0
    mode := AppMode.Command
    should_exit := false
    focused_editor := false
    focused_search := false
    search_query := []
    editorBuf := none
    editorSel := none
    searchBuf := GapBuffer.from_str [] SEARCH_BUFFER_SIZE
    popupTitle := GapBuffer.from_str [] SEARCH_BUFFER_SIZE
    popupLang := GapBuffer.from_str [] SEARCH_BUFFER_SIZE
    popupFocused := PopupField.language }

/-- States reachable by the run loop: the initial state for any loaded
snippet list, closed under draw-phase mutations and event steps. -/
inductive Reachable : MState → Prop where
  | start (snips : List Snippet) : Reachable (initState snips)
  | frameStep {s s' : MState} : Reachable s → frame s = some s' → Reachable s'
  | eventStep {s s' : MState} {e : MEvent} {sv : Bool} :
      Reachable s → step s e = some (s', sv) → Reachable s'

/-- `true` exactly for Escape key events (of any kind). -/
def isEsc : MEvent → Bool
  | MEvent.key KC.esc _ => true
  | _ => false

/-! ## The structural gap-buffer invariant (spec §3) -/

/-- The spec's structural invariant on a gap buffer: `gap_start ≤ gap_end`,
both delimiters inside the backing store, every slot of `[gap_start,
gap_end]` is filler, and the content length equals the store length minus
the inclusive gap width. -/
def Wf (b : GapBuffer) : Prop :=
  b.gap_start ≤ b.gap_end ∧
  b.gap_end < b.buffer.length ∧
  (b.buffer.drop b.gap_start).take (b.gap_end - b.gap_start + 1) =
    List.replicate (b.gap_end - b.gap_start + 1) '\x00' ∧
  b.materialize.length = b.buffer.length - (b.gap_end - b.gap_start + 1)

instance (b : GapBuffer) : Decidable (Wf b) := by
  unfold Wf
  infer_instance

/-! ## Reference model for insert/delete sequences (claim C1) -/

/-- An editing operation: insert a character, or backspace. -/
inductive EditOp where
  | ins (c : Char)
  | del
  deriving Repr, DecidableEq

/-- Run one operation on the gap buffer (`insert_char` / `delete_char`). -/
def applyEdit (b : GapBuffer) : EditOp → GapBuffer
  | EditOp.ins c => b.insert_char c
  | EditOp.del => b.delete_char

/-- Run a sequence of operations on the gap buffer. -/
def applyEdits (b : GapBuffer) (ops : List EditOp) : GapBuffer :=
  ops.foldl applyEdit b

/-- The reference model: a plain character sequence with a tracked cursor. -/
structure RefBuf where
  text : List Char
  cursor : Nat
  deriving Repr, DecidableEq

/-- Reference semantics: insert writes at the cursor and advances it;
backspace removes the character immediately left of the cursor and is a
no-op at position 0. -/
def refApply (r : RefBuf) : EditOp → RefBuf
  | EditOp.ins c =>
    { text := r.text.take r.cursor ++ c :: r.text.drop r.cursor
      cursor := r.cursor + 1 }
  | EditOp.del =>
    if r.cursor = 0 then r
    else
      { text := r.text.take (r.cursor - 1) ++ r.text.drop r.cursor
        cursor := r.cursor - 1 }

/-- Run a sequence of operations on the reference model. -/
def refApplyAll (r : RefBuf) (ops : List EditOp) : RefBuf :=
  ops.foldl refApply r

/-! ## Claim theorems -/

/-- C1 (code bug): the insert/delete-only refinement breaks down at the
*second* grow.  `grow` leaves `gap_end = buffer.len()` (one past the
store, see C2/C3), and the refilled gap shrinks back to `gap_range = 1`
after enough insertions, so the next `insert_char` invokes `grow` again
— whose tail slice `&self.buffer[self.gap_end + 1..]` then starts one
past the end of the store: a Rust panic.  Concretely, on the buffer built
from `""` with capacity 2, three insertions land in the state
`(len 4, gap_start 3, gap_end 4)` with `gap_range = 1`, so the fourth
insertion invokes `grow` with slice start `5 > 4`; the reference model
instead yields `"xyzw"`.  The claimed equality therefore fails on
in-scope operation sequences: the program crashes instead of producing
the reference content (with the editor's capacity 1024, after roughly
three thousand net insertions). -/
theorem C1_second_grow_out_of_bounds :
    (applyEdits (GapBuffer.from_str [] 2)
        [EditOp.ins 'x', EditOp.ins 'y', EditOp.ins 'z']).gapRange = 1 ∧
      (applyEdits (GapBuffer.from_str [] 2)
            [EditOp.ins 'x', EditOp.ins 'y', EditOp.ins 'z']).gap_end + 1 >
        (applyEdits (GapBuffer.from_str [] 2)
            [EditOp.ins 'x', EditOp.ins 'y', EditOp.ins 'z']).buffer.length ∧
      (refApplyAll ⟨[], 0⟩
          [EditOp.ins 'x', EditOp.ins 'y', EditOp.ins 'z',
            EditOp.ins 'w']).text = "xyzw".toList := by
  decide

/-- C2 (code bug): `grow` records `gap_end` *before* the tail is appended,
i.e. one slot past the last filler, so whenever the gap is not at the end
of the buffer the first live character after the gap falls inside
`[gap_start, gap_end]` and is dropped from the materialized content.
Below, the buffer `"Hello"`(capacity 3) with its gap moved to index 1 and
one character inserted is a reachable state on which the very next
`insert_char` invokes `grow` (`gap_range = 1`); growing it enlarges the
store from 8 to 12 slots (that part of the claim holds) but loses the
`'e'`: content `"Hxello"` becomes `"Hxllo"`. -/
theorem C2_grow_loses_content :
    (((GapBuffer.from_str "Hello".toList 3).move_gap 1).insert_char
          'x').gapRange = 1 ∧
    (((GapBuffer.from_str "Hello".toList 3).move_gap 1).insert_char
          'x').materialize = "Hxello".toList ∧
    (((GapBuffer.from_str "Hello".toList 3).move_gap 1).insert_char
            'x').grow.buffer.length = 12 ∧
    (((GapBuffer.from_str "Hello".toList 3).move_gap 1).insert_char
            'x').grow.materialize = "Hxllo".toList := by
  decide

/-- C3 (code bug): `from_str` establishes the structural invariant but an
`insert_char` that triggers `grow` destroys it: on the buffer built from
the empty string with capacity 2, the first insertion grows and leaves
`gap_end = 4` on a 4-slot store — `gap_end` is no longer within the
backing-store bounds (and, with text after the gap, `[gap_start, gap_end]`
would contain a live character). -/
theorem C3_insert_breaks_invariant :
    Wf (GapBuffer.from_str [] 2) ∧
      ¬Wf ((GapBuffer.from_str [] 2).insert_char 'x') := by
  decide

/-- C4 counterexample: with the gap width read off the spec's own data
model (`[gap_start, gap_end]` inclusive, width `gap_end - gap_start + 1`),
a `move_gap` whose target satisfies `target + width > capacity` is *not*
always a no-op: for `"Hello"` (capacity 3) and target 6 we have
`6 + 3 > 8`, yet the guard (which adds only `gap_end - gap_start`) lets
the call through and the state changes (in Rust this very call reads
`buffer[8]` on an 8-slot store and panics). -/
theorem C4_counterexample :
    6 + ((GapBuffer.from_str "Hello".toList 3).gap_end -
          (GapBuffer.from_str "Hello".toList 3).gap_start + 1) >
        (GapBuffer.from_str "Hello".toList 3).buffer.length ∧
      (GapBuffer.from_str "Hello".toList 3).move_gap 6 ≠
        GapBuffer.from_str "Hello".toList 3 := by
  decide

/-- C4 amended: the quantity the guard adds to the target is
`gap_end - gap_start` — one *less* than the inclusive gap width.  For
every buffer and target index, `move_gap` leaves the buffer unchanged
when `target + (gap_end - gap_start)` exceeds the store length, and when
the target equals `gap_start`. -/
theorem C4_move_gap_noop (b : GapBuffer) (i : Nat) :
    (b.buffer.length < i + (b.gap_end - b.gap_start) → b.move_gap i = b) ∧
      (i = b.gap_start → b.move_gap i = b) := by
  constructor
  · intro h
    simp only [GapBuffer.move_gap]
    rw [if_pos h]
  · intro h
    simp only [GapBuffer.move_gap]
    by_cases hg : b.buffer.length < i + (b.gap_end - b.gap_start)
    · rw [if_pos hg]
    · rw [if_neg hg, if_pos h]

/-- Witness for C4: on `"Hello"` (capacity 3), target 7 is rejected by
the guard (`8 < 7 + 2`) and target 5 equals `gap_start`; both calls
return the buffer unchanged. -/
theorem C4_witness :
    (GapBuffer.from_str "Hello".toList 3).move_gap 7 =
        GapBuffer.from_str "Hello".toList 3 ∧
      (GapBuffer.from_str "Hello".toList 3).move_gap 5 =
        GapBuffer.from_str "Hello".toList 3 :=
  ⟨(C4_move_gap_noop (GapBuffer.from_str "Hello".toList 3) 7).1 (by decide),
    (C4_move_gap_noop (GapBuffer.from_str "Hello".toList 3) 5).2 (by decide)⟩

/-- C5 counterexample: `grow` does not double the spare capacity the
buffer had before that grow.  After `from_str "Hello" 3` and one
insertion, the state `t1` is exactly the grow trigger (`gap_range = 1`,
two free slots of the 8-slot store, with both of `grow`'s slice bounds in
range); growing it yields 6 spare slots — neither `2 * 1` nor `2 * 2`.
And the claim's "second successive grow" never even completes: five more
insertions reach the second trigger `t2 = (len 12, gap_start 11,
gap_end 12)` with `gap_range = 1`, where the grow the next insert invokes
slices `&buffer[13..]` on a 12-slot store — a Rust panic, because the
first grow left `gap_end = buffer.len()`. -/
theorem C5_counterexample :
    ((GapBuffer.from_str "Hello".toList 3).insert_char 'x').gapRange = 1 ∧
    ((GapBuffer.from_str "Hello".toList 3).insert_char 'x').buffer.length -
        ((GapBuffer.from_str "Hello".toList 3).insert_char
            'x').materialize.length = 2 ∧
    ((GapBuffer.from_str "Hello".toList 3).insert_char 'x').gap_end + 1 ≤
      ((GapBuffer.from_str "Hello".toList 3).insert_char 'x').buffer.length ∧
    ((GapBuffer.from_str "Hello".toList 3).insert_char 'x').grow.gapRange ≠
      2 * ((GapBuffer.from_str "Hello".toList 3).insert_char 'x').gapRange ∧
    ((GapBuffer.from_str "Hello".toList 3).insert_char 'x').grow.buffer.length -
        ((GapBuffer.from_str "Hello".toList 3).insert_char
            'x').grow.materialize.length ≠
      2 * (((GapBuffer.from_str "Hello".toList 3).insert_char
              'x').buffer.length -
        ((GapBuffer.from_str "Hello".toList 3).insert_char
            'x').materialize.length) ∧
    (applyEdits (GapBuffer.from_str "Hello".toList 3)
          [EditOp.ins 'x', EditOp.ins 'y', EditOp.ins 'a', EditOp.ins 'b',
            EditOp.ins 'c', EditOp.ins 'd']).gapRange = 1 ∧
    (applyEdits (GapBuffer.from_str "Hello".toList 3)
            [EditOp.ins 'x', EditOp.ins 'y', EditOp.ins 'a', EditOp.ins 'b',
              EditOp.ins 'c', EditOp.ins 'd']).gap_end + 1 >
      (applyEdits (GapBuffer.from_str "Hello".toList 3)
            [EditOp.ins 'x', EditOp.ins 'y', EditOp.ins 'a', EditOp.ins 'b',
              EditOp.ins 'c', EditOp.ins 'd']).buffer.length := by
  decide

/-- C5 amended: a `grow` whose Rust slice bounds are in range
(`gap_start ≤ buffer.len()` and `gap_end + 1 ≤ buffer.len()`, true of
every *first* insert-triggered grow) sets the spare (gap) capacity to
exactly `capacity * 2`, where `capacity` is the construction-time field
that `grow` never updates — a fixed amount independent of the pre-grow
spare, never a doubling of it.  A second insert-triggered grow never
completes: the first grow leaves `gap_end = buffer.len()`, so when the
gap next shrinks to `gap_range = 1` the grow's tail slice starts past
the end of the store and Rust panics — witnessed by the concrete second
trigger state of the counterexample's own trace (second conjunct). -/
theorem C5_grow_fixed_spare :
    (∀ b : GapBuffer, b.gap_start ≤ b.buffer.length →
      b.gap_end + 1 ≤ b.buffer.length →
      b.grow.gapRange = b.capacity * 2 ∧ b.grow.capacity = b.capacity) ∧
    ((applyEdits (GapBuffer.from_str "Hello".toList 3)
          [EditOp.ins 'x', EditOp.ins 'y', EditOp.ins 'a', EditOp.ins 'b',
            EditOp.ins 'c', EditOp.ins 'd']).gapRange = 1 ∧
      (applyEdits (GapBuffer.from_str "Hello".toList 3)
            [EditOp.ins 'x', EditOp.ins 'y', EditOp.ins 'a', EditOp.ins 'b',
              EditOp.ins 'c', EditOp.ins 'd']).gap_end + 1 >
        (applyEdits (GapBuffer.from_str "Hello".toList 3)
              [EditOp.ins 'x', EditOp.ins 'y', EditOp.ins 'a', EditOp.ins 'b',
                EditOp.ins 'c', EditOp.ins 'd']).buffer.length) := by
  constructor
  · intro b h1 _
    refine ⟨?_, rfl⟩
    simp only [GapBuffer.grow, GapBuffer.gapRange, List.length_append,
      List.length_take, List.length_replicate]
    omega
  · decide

/-- Witness for C5: growing `from_str "Hi" 2` (slice bounds `2 ≤ 4` and
`4 ≤ 4` in range) yields spare `2 * 2 = 4`. -/
theorem C5_witness :
    (GapBuffer.from_str "Hi".toList 2).grow.gapRange =
        (GapBuffer.from_str "Hi".toList 2).capacity * 2 ∧
      (GapBuffer.from_str "Hi".toList 2).grow.capacity =
        (GapBuffer.from_str "Hi".toList 2).capacity :=
  C5_grow_fixed_spare.1 (GapBuffer.from_str "Hi".toList 2) (by decide)
    (by decide)

/-- C6 (code bug): the bounds guard of `move_gap` accepts the boundary
target `buffer.len() - (gap_end - gap_start)`, but relocating there walks
the gap one slot past the end of the store: on `"Hello"` (capacity 3),
target 6 passes the guard (`6 + 2 = 8`, not `> 8`) and Rust then reads
`buffer[8]` on the 8-slot store — a panic.  In this totalised model the
out-of-range read yields filler and the materialized content changes
from `"Hello"` to `"Hello\x00"`; either way the accepted relocation does
not preserve content. -/
theorem C6_accepted_move_gap_changes_content :
    ¬(6 + ((GapBuffer.from_str "Hello".toList 3).gap_end -
            (GapBuffer.from_str "Hello".toList 3).gap_start) >
        (GapBuffer.from_str "Hello".toList 3).buffer.length) ∧
      ((GapBuffer.from_str "Hello".toList 3).move_gap 6).materialize ≠
        (GapBuffer.from_str "Hello".toList 3).materialize := by
  decide

/-! ## Helper lemmas about the application step -/

lemma syncBuffer_fields (s : MState) (gb : GapBuffer) :
    (syncBuffer s gb).mode = s.mode ∧
      (syncBuffer s gb).focused_search = s.focused_search ∧
      (syncBuffer s gb).focused_editor = s.focused_editor := by
  unfold syncBuffer
  repeat' split
  all_goals exact ⟨rfl, rfl, rfl⟩

lemma switch_mode_fields (s : MState) (code : KC) (kind : KK) :
    (switch_mode s code kind).focused_search = s.focused_search ∧
      (switch_mode s code kind).focused_editor = s.focused_editor := by
  unfold switch_mode
  repeat' split
  all_goals exact ⟨rfl, rfl⟩

lemma listHandle_fields (s : MState) (code : KC) (kind : KK) :
    (listHandle s code kind).focused_search = s.focused_search ∧
      (listHandle s code kind).focused_editor = s.focused_editor := by
  unfold listHandle selectNext selectPrev
  dsimp only
  repeat' split
  all_goals exact ⟨rfl, rfl⟩

lemma editorHandle_fields (s : MState) (gb : GapBuffer) (code : KC)
    (kind : KK) :
    (editorHandle s gb code kind).focused_search = s.focused_search ∧
      (editorHandle s gb code kind).mode = s.mode := by
  unfold editorHandle
  dsimp only
  repeat' split
  all_goals exact ⟨rfl, rfl⟩

lemma searchHandle_fields (s : MState) (code : KC) (kind : KK) :
    (searchHandle s code kind).focused_editor = s.focused_editor ∧
      (searchHandle s code kind).mode = s.mode := by
  unfold searchHandle
  dsimp only
  repeat' split
  all_goals exact ⟨rfl, rfl⟩

lemma popupHandle_fields (s : MState) (code : KC) (kind : KK) :
    (popupHandle s code kind).focused_search = s.focused_search ∧
      (popupHandle s code kind).focused_editor = s.focused_editor := by
  unfold popupHandle
  repeat' split
  all_goals exact ⟨rfl, rfl⟩

lemma frameInit_fields {s s' : MState} (h : frameInit s = some s') :
    s'.focused_search = s.focused_search ∧
      s'.focused_editor = s.focused_editor ∧ s'.mode = s.mode := by
  unfold frameInit at h
  split at h
  · cases h
    exact ⟨rfl, rfl, rfl⟩
  · split at h
    · cases h
      exact ⟨rfl, rfl, rfl⟩
    · cases h

lemma frame_fields {s s' : MState} (h : frame s = some s') :
    s'.focused_search = s.focused_search ∧
      s'.focused_editor = s.focused_editor ∧ s'.mode = s.mode := by
  unfold frame at h
  cases hf : frameInit s with
  | none => rw [hf] at h; cases h
  | some s2 =>
    rw [hf] at h
    cases hb : s2.editorBuf with
    | none => simp [hb] at h
    | some gb =>
      cases hc : s2.get_current_snippet with
      | none => simp [hb, hc] at h
      | some sn =>
        simp only [hb, hc, Option.some.injEq] at h
        rw [← h]
        exact frameInit_fields hf

/-- The at-most-one-focus invariant of claim C8: each focus flag is only
set in its own mode, both are clear in `Command` mode, and they are never
both set. -/
def FocusInv (s : MState) : Prop :=
  (s.focused_search = true → s.mode = AppMode.Search) ∧
  (s.focused_editor = true → s.mode = AppMode.Edit) ∧
  (s.mode = AppMode.Command →
    s.focused_search = false ∧ s.focused_editor = false) ∧
  ¬(s.focused_search = true ∧ s.focused_editor = true)

lemma focusInv_of_flags {s : MState} (h1 : s.focused_search = false)
    (h2 : s.focused_editor = false) : FocusInv s := by
  refine ⟨?_, ?_, ?_, ?_⟩ <;> simp [h1, h2]

lemma flags_false_of_mode {s : MState} (hInv : FocusInv s)
    (hs : s.mode ≠ AppMode.Search) (he : s.mode ≠ AppMode.Edit) :
    s.focused_search = false ∧ s.focused_editor = false := by
  constructor
  · cases hx : s.focused_search with
    | false => rfl
    | true => exact absurd (hInv.1 hx) hs
  · cases hx : s.focused_editor with
    | false => rfl
    | true => exact absurd (hInv.2.1 hx) he

lemma dispatch_preserves_focusInv {s s' : MState} {code : KC} {kind : KK}
    (hInv : FocusInv s) (h : dispatch s code kind = some s') :
    FocusInv s' := by
  unfold dispatch at h
  by_cases h1 : s.mode = AppMode.Command
  · rw [if_pos h1, Option.some.injEq] at h
    obtain ⟨hfs, hfe⟩ := hInv.2.2.1 h1
    obtain ⟨p1, p2⟩ := switch_mode_fields s code kind
    rw [← h]
    exact focusInv_of_flags (p1.trans hfs) (p2.trans hfe)
  · rw [if_neg h1] at h
    by_cases h2 : s.mode = AppMode.Select
    · rw [if_pos h2, Option.some.injEq] at h
      obtain ⟨hfs, hfe⟩ := flags_false_of_mode hInv (by rw [h2]; simp)
        (by rw [h2]; simp)
      obtain ⟨p1, p2⟩ := listHandle_fields s code kind
      rw [← h]
      exact focusInv_of_flags (p1.trans hfs) (p2.trans hfe)
    · rw [if_neg h2] at h
      by_cases h3 : s.mode = AppMode.Edit
      · rw [if_pos h3] at h
        cases hb : s.editorBuf with
        | none => rw [hb] at h; cases h
        | some gb =>
          rw [hb, Option.some.injEq] at h
          obtain ⟨p1, p2⟩ := editorHandle_fields s gb code kind
          have hfs : s.focused_search = false := by
            cases hx : s.focused_search with
            | false => rfl
            | true => exact absurd ((hInv.1 hx).symm.trans h3) (by simp)
          rw [← h]
          refine ⟨?_, ?_, ?_, ?_⟩
          · intro hx
            rw [p1, hfs] at hx
            cases hx
          · intro _
            rw [p2, h3]
          · intro hcmd
            rw [p2] at hcmd
            exact absurd hcmd h1
          · rintro ⟨hx, _⟩
            rw [p1, hfs] at hx
            cases hx
      · rw [if_neg h3] at h
        by_cases h4 : s.mode = AppMode.Search
        · rw [if_pos h4, Option.some.injEq] at h
          obtain ⟨p1, p2⟩ := searchHandle_fields s code kind
          have hfe : s.focused_editor = false := by
            cases hx : s.focused_editor with
            | false => rfl
            | true => exact absurd ((hInv.2.1 hx).symm.trans h4) (by simp)
          rw [← h]
          refine ⟨?_, ?_, ?_, ?_⟩
          · intro _
            rw [p2, h4]
          · intro hx
            rw [p1, hfe] at hx
            cases hx
          · intro hcmd
            rw [p2] at hcmd
            exact absurd hcmd h1
          · rintro ⟨_, hx⟩
            rw [p1, hfe] at hx
            cases hx
        · rw [if_neg h4, Option.some.injEq] at h
          obtain ⟨hfs, hfe⟩ := flags_false_of_mode hInv h4 h3
          obtain ⟨p1, p2⟩ := popupHandle_fields s code kind
          rw [← h]
          exact focusInv_of_flags (p1.trans hfs) (p2.trans hfe)

lemma step_nonEsc {s s' : MState} {code : KC} {kind : KK} {sv : Bool}
    (hcode : code ≠ KC.esc)
    (h : step s (MEvent.key code kind) = some (s', sv)) :
    dispatch s code kind = some s' ∧ sv = false := by
  simp only [step, if_neg hcode] at h
  cases hd : dispatch s code kind with
  | none => rw [hd] at h; cases h
  | some t =>
    rw [hd] at h
    simp only [Option.map_some', Option.some.injEq, Prod.mk.injEq] at h
    exact ⟨congrArg some h.1, h.2.symm⟩

lemma step_esc {s s' : MState} {kind : KK} {sv : Bool} {gb : GapBuffer}
    (hb : s.editorBuf = some gb)
    (h : step s (MEvent.key KC.esc kind) = some (s', sv)) :
    s' =
      syncBuffer
        { s with
          mode := AppMode.Command
          focused_search := false
          focused_editor := false } gb ∧
      sv = true := by
  simp only [step, hb, eq_self_iff_true, if_true, Option.some.injEq,
    Prod.mk.injEq] at h
  rw [hb]
  exact ⟨h.1.symm, h.2.symm⟩

lemma step_preserves_focusInv {s s' : MState} {e : MEvent} {sv : Bool}
    (hInv : FocusInv s) (h : step s e = some (s', sv)) : FocusInv s' := by
  cases e with
  | nonkey =>
    simp only [step, Option.some.injEq, Prod.mk.injEq] at h
    rw [← h.1]
    exact hInv
  | key code kind =>
    by_cases hcode : code = KC.esc
    · subst hcode
      cases hb : s.editorBuf with
      | none =>
        simp only [step, hb, eq_self_iff_true, if_true] at h
        cases h
      | some gb =>
        obtain ⟨h1, _⟩ := step_esc hb h
        rw [h1]
        exact focusInv_of_flags ((syncBuffer_fields _ gb).2.1)
          ((syncBuffer_fields _ gb).2.2)
    · exact dispatch_preserves_focusInv hInv (step_nonEsc hcode h).1

lemma strContains_nil (hay : List Char) : MState.strContains hay [] = true := by
  cases hay <;> rfl

lemma syncBuffer_snippets_of_sel {s : MState} {gb : GapBuffer} {i : Nat}
    {sn : Snippet} (hsel : s.get_selected_snippet_index = some i)
    (hsn : s.snippets.get? i = some sn) :
    (syncBuffer s gb).snippets =
      s.snippets.set i { sn with code := gb.materialize } := by
  unfold syncBuffer
  simp only [hsel, hsn]

lemma syncBuffer_snippets_of_none {s : MState} {gb : GapBuffer}
    (hsel : s.get_selected_snippet_index = none) :
    (syncBuffer s gb).snippets = s.snippets := by
  unfold syncBuffer
  simp only [hsel]

/-- The built-in welcome record from `src/persistence.rs`. -/
def welcomeSnippet : Snippet :=
  { language := "txt".toList
    code := "Dial is a code snippet manager built with rust and ratatui.".toList
    title := "Welcome to Dial".toList }

/-- The state after pressing `'s'` in `Command` mode on the initial state. -/
def c7afterS : MState :=
  { initState [welcomeSnippet] with mode := AppMode.Select }

/-- The state after additionally pressing `'a'` in `Select` mode. -/
def c7popup : MState :=
  { initState [welcomeSnippet] with mode := AppMode.Popup }

/-- The state after additionally pressing `'A'` in `Popup` mode: the new
(empty-titled) snippet is appended and the mode is back to `Command`. -/
def c7afterA : MState :=
  { initState [welcomeSnippet] with
    snippets := [welcomeSnippet, { language := [], code := [], title := [] }]
    mode := AppMode.Command }

/-- C7 counterexample: along the reachable path Command —`s`→ Select
—`a`→ Popup —`A`→ Command, the popup's confirm key `'A'` transitions the
mode back to `Command` with the save flag `false`: `save_snippets` is
*not* invoked on this transition (only the Escape branch of `App::run`
saves). -/
theorem C7_counterexample :
    step (initState [welcomeSnippet]) (MEvent.key (KC.char 's') KK.press) =
        some (c7afterS, false) ∧
      step c7afterS (MEvent.key (KC.char 'a') KK.press) =
        some (c7popup, false) ∧
      c7popup.mode = AppMode.Popup ∧
      step c7popup (MEvent.key (KC.char 'A') KK.press) =
        some (c7afterA, false) ∧
      c7afterA.mode = AppMode.Command := by
  set_option maxRecDepth 4000 in decide

/-- C7 amended: processing an event invokes `save_snippets` exactly when
the event is an Escape key event (of any kind); in particular the
Select→Popup→Command confirm path (`'A'`) does not save — the snippet it
appends is only persisted by the next Escape. -/
theorem C7_save_iff_escape (s : MState) (e : MEvent) (s' : MState)
    (sv : Bool) (h : step s e = some (s', sv)) :
    sv = true ↔ isEsc e = true := by
  cases e with
  | nonkey =>
    simp only [step, Option.some.injEq, Prod.mk.injEq] at h
    rw [← h.2]
    simp [isEsc]
  | key code kind =>
    by_cases hcode : code = KC.esc
    · subst hcode
      cases hb : s.editorBuf with
      | none =>
        simp only [step, hb, eq_self_iff_true, if_true] at h
        cases h
      | some gb =>
        obtain ⟨_, h2⟩ := step_esc hb h
        rw [h2]
        simp [isEsc]
    · obtain ⟨_, h2⟩ := step_nonEsc hcode h
      rw [h2]
      have hiso : isEsc (MEvent.key code kind) = false := by
        cases code with
        | esc => exact absurd rfl hcode
        | char c => rfl
        | enter => rfl
        | backspace => rfl
        | left => rfl
        | right => rfl
        | tab => rfl
        | other => rfl
      rw [hiso]

/-- A state whose editor buffer is initialised (as after the first drawn
frame), ready for an Escape event. -/
def escReady : MState :=
  { initState [welcomeSnippet] with
    editorBuf := some (GapBuffer.from_str "Hi".toList 2) }

/-- Witness for C7: an Escape key event on `escReady` is processed with
the save flag `true`. -/
theorem C7_witness : (true = true ↔ isEsc (MEvent.key KC.esc KK.press) = true) :=
  C7_save_iff_escape escReady (MEvent.key KC.esc KK.press)
    (syncBuffer
      { escReady with
        mode := AppMode.Command
        focused_search := false
        focused_editor := false } (GapBuffer.from_str "Hi".toList 2)) true rfl

/-- C8: in every state reachable by the run loop, the focus flags are
mode-consistent: `focused_search` only in `Search` mode, `focused_editor`
only in `Edit` mode, both clear in `Command` mode, never both set. -/
theorem C8_focus_flags_invariant (s : MState) (h : Reachable s) :
    FocusInv s := by
  induction h with
  | start snips => exact focusInv_of_flags rfl rfl
  | frameStep hr hf ih =>
    obtain ⟨p1, p2, p3⟩ := frame_fields hf
    refine ⟨?_, ?_, ?_, ?_⟩
    · intro hx
      rw [p1] at hx
      rw [p3]
      exact ih.1 hx
    · intro hx
      rw [p2] at hx
      rw [p3]
      exact ih.2.1 hx
    · intro hc
      rw [p3] at hc
      rw [p1, p2]
      exact ih.2.2.1 hc
    · rintro ⟨h1, h2⟩
      rw [p1] at h1
      rw [p2] at h2
      exact ih.2.2.2 ⟨h1, h2⟩
  | eventStep hr hs ih => exact step_preserves_focusInv ih hs

/-- Witness for C8 at the initial state. -/
theorem C8_witness : FocusInv (initState [welcomeSnippet]) :=
  C8_focus_flags_invariant (initState [welcomeSnippet])
    (Reachable.start [welcomeSnippet])

/-- C9: `filtered_snippets` returns exactly the `(original_index, record)`
pairs whose case-folded title contains the case-folded query, in store
order (it is a sublist of the enumerated store), and the empty query
yields every record with its original index.  The two hypotheses confine
the statement to ASCII queries and titles: there `Char.toLower` coincides
character-for-character with Rust's full-Unicode `to_lowercase`, so
`matchesQuery` is exactly the program's filter predicate on the whole
quantified domain (Rust's Unicode case-mapping tables are not embeddable
verbatim, and the claim is settled only where the embedding is exact). -/
theorem C9_filtered_snippets_spec (s : MState)
    (_hq : ∀ c ∈ s.search_query, c.toNat < 128)
    (_ht : ∀ sn ∈ s.snippets, ∀ c ∈ sn.title, c.toNat < 128) :
    (∀ i sn, ((i, sn) ∈ s.filtered_snippets ↔
      s.snippets.get? i = some sn ∧
        MState.matchesQuery s.search_query sn = true)) ∧
      s.filtered_snippets.Sublist s.snippets.enum ∧
      (s.search_query = [] → s.filtered_snippets = s.snippets.enum) := by
  refine ⟨fun i sn => ?_, List.filter_sublist _, fun hq2 => ?_⟩
  · unfold MState.filtered_snippets
    rw [List.mem_filter, List.get?_eq_getElem?]
    constructor
    · rintro ⟨hmem, hp⟩
      exact ⟨List.mk_mem_enum_iff_getElem?.mp hmem, hp⟩
    · rintro ⟨hmem, hp⟩
      exact ⟨List.mk_mem_enum_iff_getElem?.mpr hmem, hp⟩
  · unfold MState.filtered_snippets
    apply List.filter_eq_self.mpr
    intro a _
    rw [hq2]
    unfold MState.matchesQuery
    simp only [List.map_nil]
    exact strContains_nil _

/-- Witness for C9: on the initial state (ASCII welcome record, empty
query) the filtered view is the whole enumerated store. -/
theorem C9_witness :
    (initState [welcomeSnippet]).filtered_snippets =
      (initState [welcomeSnippet]).snippets.enum :=
  (C9_filtered_snippets_spec (initState [welcomeSnippet]) (by decide)
      (by decide)).2.2 rfl

/-- C10: an Escape key event of *any* kind, in *any* mode (including
`Command`), provided the editor buffer has been initialised, is handled
before the mode dispatch: the mode becomes `Command`, both focus flags
are cleared, the buffer's materialized content is written into the
selected record (the store is untouched when the filtered view leaves no
selection), and a save is performed. -/
theorem C10_escape_syncs_and_saves (s : MState) (gb : GapBuffer) (kind : KK)
    (hb : s.editorBuf = some gb) :
    ∃ s', step s (MEvent.key KC.esc kind) = some (s', true) ∧
      s'.mode = AppMode.Command ∧ s'.focused_search = false ∧
      s'.focused_editor = false ∧
      (∀ i sn, s.get_selected_snippet_index = some i →
        s.snippets.get? i = some sn →
        s'.snippets = s.snippets.set i { sn with code := gb.materialize }) ∧
      (s.get_selected_snippet_index = none → s'.snippets = s.snippets) := by
  refine ⟨syncBuffer
      { s with
        mode := AppMode.Command
        focused_search := false
        focused_editor := false } gb, ?_, ?_, ?_, ?_, ?_, ?_⟩
  · simp [step, hb]
  · exact (syncBuffer_fields _ gb).1
  · exact (syncBuffer_fields _ gb).2.1
  · exact (syncBuffer_fields _ gb).2.2
  · intro i sn hsel hsn
    exact syncBuffer_snippets_of_sel hsel hsn
  · intro hsel
    exact syncBuffer_snippets_of_none hsel

/-- Witness for C10: Escape (of non-press kind, emphasising that the
handler ignores the event kind) on the concrete `escReady` state. -/
theorem C10_witness :
    ∃ s', step escReady (MEvent.key KC.esc KK.notPress) = some (s', true) ∧
      s'.mode = AppMode.Command ∧ s'.focused_search = false ∧
      s'.focused_editor = false ∧
      (∀ i sn, escReady.get_selected_snippet_index = some i →
        escReady.snippets.get? i = some sn →
        s'.snippets = escReady.snippets.set i
          { sn with code := (GapBuffer.from_str "Hi".toList 2).materialize }) ∧
      (escReady.get_selected_snippet_index = none →
        s'.snippets = escReady.snippets) :=
  C10_escape_syncs_and_saves escReady (GapBuffer.from_str "Hi".toList 2)
    KK.notPress rfl

end Dial
